import Mathlib

/-!
Verification of the adaptive form-filling core of `agent_deploy/llm_apply_o1_login.py`.

The Python source drives a browser through an external collaborator; every
browser interaction (locating elements, typing, reading values back, pressing
keys, evaluating scripts) is an effect whose outcome the code cannot predict.
The shallow embedding therefore models each operation's *environment* as an
explicit oracle value (per-attempt outcomes, per-iteration highlighted-option
reads, exception points), and translates the Python control flow over those
oracles into total Lean functions.  Python strings map to `String`,
`str.strip()` to `trimStr`, `str.lower()` to `lowerStr` (ASCII models of the
Unicode operations), and the Python substring test `needle in hay` to infix
containment on character lists.
-/

namespace RecToc

/-- Is `needle` a prefix of `hay` (on character lists)? -/
def isPrefB : List Char → List Char → Bool
  | [], _ => true
  | _ :: _, [] => false
  | a :: as, b :: bs => a == b && isPrefB as bs

/-- Is `needle` an infix of `hay` (on character lists)? -/
def isInfB (needle : List Char) : List Char → Bool
  | [] => needle.isEmpty
  | b :: bs => isPrefB needle (b :: bs) || isInfB needle bs

/-- Python's substring test `needle in hay` (on already-case-folded strings
where the source lowercases first). -/
def substrB (needle hay : String) : Bool :=
  isInfB needle.data hay.data

/-- Python `str.lower()` (ASCII model of the Unicode case folding). -/
def lowerStr (s : String) : String :=
  ⟨s.data.map Char.toLower⟩

/-- Python `str.strip()` (whitespace model via `Char.isWhitespace`). -/
def trimStr (s : String) : String :=
  ⟨(((s.data.dropWhile Char.isWhitespace).reverse).dropWhile
      Char.isWhitespace).reverse⟩

/-- Python slice `s[:n]`. -/
def takeStr (s : String) (n : Nat) : String :=
  ⟨s.data.take n⟩

/-- `browser_use.ActionResult` as consumed by this script: either
`extracted_content` (success) or `error`. -/
inductive ActionResult where
  | ok (content : String)
  | err (msg : String)
deriving DecidableEq

/-- Whether an `ActionResult` is a success outcome. -/
def ActionResult.isOk : ActionResult → Bool
  | .ok _ => true
  | .err _ => false

/-- Whether an `ActionResult` is a failure (error) outcome. -/
def ActionResult.isErr : ActionResult → Bool
  | .ok _ => false
  | .err _ => true

/-! ## Field Locator: `find_highlight_index_for_field` (source lines 712-723) -/

/-- One selector-map entry: the element's xpath and the rendered text returned
by `get_all_text_till_next_clickable_element(max_depth=0)`. -/
structure DomEl where
  xpath : String
  textRepr : String
deriving DecidableEq

/-- The match test of `find_highlight_index_for_field`:
`field_id.lower() in dom_el.xpath.lower() or label.lower() in text_repr`
(where `text_repr` is the element text, lowercased by the source). -/
def fieldMatches (field_id label : String) (el : DomEl) : Bool :=
  substrB (lowerStr field_id) (lowerStr el.xpath) ||
    substrB (lowerStr label) (lowerStr el.textRepr)

/-- `find_highlight_index_for_field`: iterate the selector map (modelled as an
association list in the map's natural iteration order) and return the first
index whose entry matches; `None` if none does. -/
def find_highlight_index_for_field (selectorMap : List (Nat × DomEl))
    (field_id label : String) : Option Nat :=
  match selectorMap with
  | [] => none
  | (idx, el) :: rest =>
      if fieldMatches field_id label el then some idx
      else find_highlight_index_for_field rest field_id label

/-! ## Retry/Verification Engine: `input_text_with_retry` (lines 262-321) -/

/-- The outcome of one attempt of the retry loop, as decided by the browser:
the element failed to locate, an exception was raised somewhere in the
attempt's body, or the attempt cleared, typed, and read back value `v`. -/
inductive AttemptEv where
  | locateFail
  | exc (msg : String)
  | readBack (v : String)
deriving DecidableEq

/-- Environment of one `input_text_with_retry` call: whether the index is in
the selector map, and the outcome of each (potential) attempt. -/
structure InputEnv where
  inMap : Bool
  attempts : Nat → AttemptEv

/-- Error message for an index absent from the selector map. -/
def noElementMsg (index : Nat) : String :=
  "No element found at index " ++ toString index

/-- Error message when the element cannot be located on the final attempt. -/
def locateFailMsg (index : Nat) : String :=
  "Could not locate text field at index " ++ toString index

/-- Success message of `input_text_with_retry`. -/
def inputOkMsg (text : String) (index : Nat) : String :=
  "Successfully input '" ++ text ++ "' into field " ++ toString index

/-- Error message after exhausting all retries. -/
def inputExhaustedMsg (text : String) (index maxRetries : Nat) : String :=
  "Unable to input '" ++ text ++ "' into field " ++ toString index ++
    " after " ++ toString maxRetries ++ " attempts"

/-- The `for attempt in range(max_retries)` loop of `input_text_with_retry`.
`attempt` is the current attempt number, `fuel` the number of loop iterations
left (`attempt + fuel = maxRetries` at every call from the entry point).
Mirrors the source: a locate failure or exception on the last attempt returns
an error; a read-back whose trim equals the text's trim returns success; any
other outcome retries; falling out of the loop returns the exhausted error. -/
def inputLoop (att : Nat → AttemptEv) (text : String)
    (index maxRetries : Nat) : Nat → Nat → ActionResult
  | _, 0 => .err (inputExhaustedMsg text index maxRetries)
  | attempt, fuel + 1 =>
      match att attempt with
      | .locateFail =>
          if attempt = maxRetries - 1 then .err (locateFailMsg index)
          else inputLoop att text index maxRetries (attempt + 1) fuel
      | .exc m =>
          if attempt = maxRetries - 1 then .err m
          else inputLoop att text index maxRetries (attempt + 1) fuel
      | .readBack v =>
          if trimStr v = trimStr text then .ok (inputOkMsg text index)
          else inputLoop att text index maxRetries (attempt + 1) fuel

/-- `input_text_with_retry(index, text, browser, max_retries=3)`:
immediately errors when the index is not in the selector map, otherwise runs
the bounded retry loop. -/
def input_text_with_retry (env : InputEnv) (index : Nat) (text : String)
    (maxRetries : Nat := 3) : ActionResult :=
  if env.inMap then inputLoop env.attempts text index maxRetries 0 maxRetries
  else .err (noElementMsg index)

/-! ## Custom dropdown fallback chain: `custom_select_dropdown_option`
(lines 390-593) -/

/-- Outcome of one `page.evaluate(check_current_option_js)` read during
keyboard navigation: either the script's value (`None` or the highlighted
option's trimmed text) or an exception. -/
inductive KbRead where
  | val (c : Option String)
  | exc (msg : String)

/-- Keys pressed by the keyboard-navigation stage. -/
inductive Key where
  | arrowDown
  | arrowUp
  | enter
deriving DecidableEq

/-- Actions recorded for the keyboard-navigation stage. -/
inductive KbAct where
  | typeChars (s : String)
  | press (k : Key)
deriving DecidableEq

/-- Result of the keyboard-navigation polling loop. -/
inductive KbOut where
  | success (attempt : Nat)
  | exhausted
  | exc (msg : String)
deriving DecidableEq

/-- The Enter condition
`if current_text and text.lower() in current_text.lower()`: the read must be
non-`None`, non-empty (Python truthiness of strings) and contain the target
as a case-insensitive substring. -/
def kbHit (text : String) : Option String → Bool
  | none => false
  | some s => (!(s = "")) && substrB (lowerStr text) (lowerStr s)

/-- The key chosen at polling iteration `attempt`:
`if attempt < max_attempts / 2` with `max_attempts = 30`, so ArrowDown on
iterations 0-14 and ArrowUp on iterations 15-29. -/
def kbKey (attempt : Nat) : Key :=
  if attempt < 15 then .arrowDown else .arrowUp

/-- The `for attempt in range(max_attempts)` polling loop (lines 468-481):
read the currently highlighted option; on a hit press Enter and succeed,
on an exception abort the stage, otherwise press the iteration's arrow key
and continue.  Returns the outcome and the list of key presses made. -/
def kbLoop (read : Nat → KbRead) (text : String) :
    Nat → Nat → KbOut × List KbAct
  | _, 0 => (.exhausted, [])
  | attempt, fuel + 1 =>
      match read attempt with
      | .exc m => (.exc m, [])
      | .val c =>
          if kbHit text c then (.success attempt, [.press .enter])
          else
            let rest := kbLoop read text (attempt + 1) fuel
            (rest.1, .press (kbKey attempt) :: rest.2)

/-- The whole keyboard-navigation stage (lines 457-483): click for focus and
type `text[:3]` (an exception there, modelled by `pre`, aborts the stage),
then poll up to 30 iterations. -/
def kbStage (pre : Option String) (read : Nat → KbRead) (text : String) :
    KbOut × List KbAct :=
  match pre with
  | some m => (.exc m, [])
  | none =>
      let r := kbLoop read text 0 30
      (r.1, .typeChars (takeStr text 3) :: r.2)

/-- Outcome of `page.evaluate(scroll_and_find_js, text)` in the container
scroll stage: option found, not found, or an exception. -/
inductive ScrollEv where
  | found
  | notFound
  | exc (msg : String)
deriving DecidableEq

/-- Environment of one `custom_select_dropdown_option` call. -/
structure DropEnv where
  /-- is `index` in the selector map? -/
  inMap : Bool
  /-- exception of the scroll-into-view evaluate (logged only) -/
  scrollExc : Option String
  /-- did `get_locate_element` find the element handle? -/
  locateOk : Bool
  /-- exception while clicking the control open (returns an error) -/
  openClickExc : Option String
  /-- exception in the keyboard stage before the polling loop -/
  kbPre : Option String
  /-- per-iteration highlighted-option reads of the polling loop -/
  kbRead : Nat → KbRead
  /-- outcome of the container scroll-and-search script -/
  scrollFind : ScrollEv
  /-- for each of the six `option_selectors`, whether `wait_for_selector`
  finds a visible option and the click on it succeeds -/
  selClick : Fin 6 → Bool
  /-- exception of the final direct type-and-enter fallback -/
  finalExc : Option String

/-- First of the six option selectors whose wait-and-click succeeds in the
container scroll stage (lines 566-576). -/
def firstSelClick (f : Fin 6 → Bool) : Option (Fin 6) :=
  (List.finRange 6).find? f

/-- Stages of the fallback chain, in source order.  `openClick` is the click
that opens the control (lines 426-435); the spec's "click-and-keyboard
navigation" stage is `openClick` followed by `keyboardNav`. -/
inductive Stage where
  | scrollIntoView
  | openClick
  | keyboardNav
  | containerScroll
  | typeEnter
deriving DecidableEq

/-- The full ordered chain. -/
def stageChain : List Stage :=
  [.scrollIntoView, .openClick, .keyboardNav, .containerScroll, .typeEnter]

/-- Did the keyboard stage report success? -/
def kbSucceedsB (env : DropEnv) (text : String) : Bool :=
  match (kbStage env.kbPre env.kbRead text).1 with
  | .success _ => true
  | _ => false

/-- Did the container scroll stage report success (script found the option
and one of the six selectors clicked)? -/
def csSucceedsB (env : DropEnv) : Bool :=
  match env.scrollFind with
  | .found => (firstSelClick env.selClick).isSome
  | _ => false

/-- Success message of the keyboard-navigation stage. -/
def kbOkMsg (text : String) (attempt : Nat) : String :=
  "Selected option '" ++ text ++ "' using keyboard nav after " ++
    toString (attempt + 1) ++ " attempts"

/-- Success message of the container scroll stage. -/
def csOkMsg (text : String) : String :=
  "Selected option '" ++ text ++ "' via scrolling/click"

/-- Success message of the final typing fallback. -/
def teOkMsg (text : String) : String :=
  "Selected option '" ++ text ++ "' using direct typing + enter"

/-- The final direct type-and-enter fallback (lines 581-593): click, type the
full text, press Enter; reports success unless an exception is raised. -/
def dropFinal (env : DropEnv) (index : Nat) (text : String)
    (t : List Stage) : ActionResult × List Stage :=
  match env.finalExc with
  | none => (.ok (teOkMsg text), t ++ [.typeEnter])
  | some e =>
      (.err ("Could not select custom dropdown item '" ++ text ++
        "' on index " ++ toString index ++ ": " ++ e), t ++ [.typeEnter])

/-- `custom_select_dropdown_option(index, text, browser)`: the staged
fallback chain, returning the `ActionResult` and the list of stages entered.
Scroll-into-view exceptions are logged and ignored; a locate failure or an
exception opening the control returns an error without running later stages;
the keyboard stage, container scroll stage and final typing fallback run in
order, each only when everything before it failed to report success. -/
def custom_select_dropdown_option (env : DropEnv) (index : Nat)
    (text : String) : ActionResult × List Stage :=
  if !env.inMap then (.err (noElementMsg index), [])
  else
    let t1 : List Stage := [.scrollIntoView]
    if !env.locateOk then
      (.err ("Could not locate element for custom dropdown at index " ++
        toString index), t1)
    else
      match env.openClickExc with
      | some e =>
          (.err ("Failed to click custom dropdown at index " ++
            toString index ++ ": " ++ e), t1 ++ [.openClick])
      | none =>
          let t2 := t1 ++ [.openClick]
          match (kbStage env.kbPre env.kbRead text).1 with
          | .success a => (.ok (kbOkMsg text a), t2 ++ [.keyboardNav])
          | _ =>
              let t3 := t2 ++ [.keyboardNav]
              match env.scrollFind with
              | .found =>
                  match firstSelClick env.selClick with
                  | some _ => (.ok (csOkMsg text), t3 ++ [.containerScroll])
                  | none => dropFinal env index text (t3 ++ [.containerScroll])
              | _ => dropFinal env index text (t3 ++ [.containerScroll])

/-! ## Form Progress Loop: `fill_fields_iteratively` (lines 599-709)

The loop's control flow depends only on the per-round result of
`get_unfilled_required_fields`: every per-field action inside the body
returns an `ActionResult` that is logged and never consulted for control
(lines 664-707), so the body is modelled by accumulating the fields
dispatched.  The value-selection heuristics of the body are modelled
separately below (`textValueFor`, `selectChoice`). -/

/-- One discovered required field (`field_info["id"]`,
`field_info["type"].lower()`, `field_info.get("label", "")`). -/
structure Field where
  id : String
  ftype : String
  label : String
deriving DecidableEq

/-- Per-round result of the `get_unfilled_required_fields` action:
an error result, falsy `extracted_content`, content that fails to parse as
JSON, or a parsed `unfilled_fields` list (missing key defaults to `[]`). -/
inductive Discovery where
  | err (msg : String)
  | noContent
  | badJson
  | fields (l : List Field)

/-- Why the loop exited: one of the four early `break`s or the round budget.
Every exit is a plain `break` followed by a final log — none raises. -/
inductive ExitReason where
  | discoverErr
  | noContent
  | parseFail
  | converged
  | budget
deriving DecidableEq

/-- The exit reason produced by a round whose discovery result stops the
loop (`fields l` stops it only when `l` is empty). -/
def exitOf : Discovery → ExitReason
  | .err _ => .discoverErr
  | .noContent => .noContent
  | .badJson => .parseFail
  | .fields _ => .converged

/-- Does this discovery result let the loop continue to the next round? -/
def isProgress : Discovery → Bool
  | .fields (_ :: _) => true
  | _ => false

/-- Final state of the loop: exit reason, the value of `round_count` at
exit, and all fields dispatched to the per-field fill logic, in order. -/
structure LoopResult where
  reason : ExitReason
  rounds : Nat
  processed : List Field
deriving DecidableEq

/-- The `while round_count < max_rounds` loop.  `rc` is `round_count`,
`fuel = max_rounds - rc`.  Each iteration increments the round counter,
queries discovery for that round, breaks on an error / missing content /
parse failure / empty list, and otherwise dispatches every listed field
before the next round. -/
def fillLoop (disc : Nat → Discovery) :
    Nat → Nat → List Field → LoopResult
  | rc, 0, acc => ⟨.budget, rc, acc⟩
  | rc, fuel + 1, acc =>
      match disc (rc + 1) with
      | .err _ => ⟨.discoverErr, rc + 1, acc⟩
      | .noContent => ⟨.noContent, rc + 1, acc⟩
      | .badJson => ⟨.parseFail, rc + 1, acc⟩
      | .fields [] => ⟨.converged, rc + 1, acc⟩
      | .fields (f :: fs) =>
          fillLoop disc (rc + 1) fuel (acc ++ (f :: fs))

/-- `fill_fields_iteratively`: run the loop with `max_rounds = 25` from
`round_count = 0`. -/
def fill_fields_iteratively (disc : Nat → Discovery) : LoopResult :=
  fillLoop disc 0 25 []

/-- Candidate data consulted by the text/textarea branch
(`candidate_global_data.get(key, default)`); a `none` field models a missing
key. -/
structure Candidate where
  name : Option String
  email : Option String
  phone : Option String
  address : Option String

/-- The label-keyword heuristic choosing the text to type for a
text/textarea field (lines 649-658), checked in source order. -/
def textValueFor (cand : Candidate) (label : String) : String :=
  if substrB "name" (lowerStr label) then cand.name.getD "John Doe"
  else if substrB "email" (lowerStr label) then cand.email.getD "john@example.com"
  else if substrB "phone" (lowerStr label) then cand.phone.getD "+1-202-555-0147"
  else if substrB "address" (lowerStr label) then cand.address.getD ""
  else "Lorem Ipsum"

/-- The label heuristic choosing the dropdown value for a select field
(lines 670-675): marketing channel, device, or the affirmative default. -/
def selectChoice (label : String) : String :=
  if substrB "how did you hear" (lowerStr label) then "LinkedIn"
  else if substrB "phone device" (lowerStr label) then "Mobile"
  else "Yes"

/-! ## Login Flow Runner: `get_site_login_credentials` (lines 118-146) and
`perform_login_flow` (lines 152-256) -/

/-- One credentials entry.  `creds.get("username", "")` /
`creds.get("password", "")` make a missing key indistinguishable from the
empty string, so a missing field is modelled as `""`. -/
structure Creds where
  username : String
  password : String
deriving DecidableEq

/-- The in-memory credentials map `login_credentials_data`, as an
association list in insertion order. -/
abbrev CredMap := List (String × Creds)

/-- The lookup through `{k.lower(): v for k, v in data.items()}`: a dict
comprehension keeps the value of the *last* key whose lowercase form
collides, so the model takes the last matching entry. -/
def lookupLower (data : CredMap) (key : String) : Option Creds :=
  ((data.filter (fun p => lowerStr p.1 = key)).getLast?).map Prod.snd

/-- Result of `get_site_login_credentials`, with the log lines it emits.
The error message renders the available-sites list; Python's `repr` quoting
of the key list is abstracted by `toString` on the list of keys. -/
def get_site_login_credentials (data : CredMap) (site_name : String) :
    List String × Sum Creds String :=
  let key := lowerStr (trimStr site_name)
  match lookupLower data key with
  | some c => ([], .inl c)
  | none =>
      let msg := "No login credentials found for site '" ++ site_name ++
        "' (available sites: " ++ toString (data.map Prod.fst) ++ ")"
      ([msg], .inr msg)

/-- Primitive browser actions of the login sequences. -/
inductive BAct where
  | getCurrentPage
  | goto (url : String)
  | waitForLoad
  | fill (selector value : String)
  | sleep
  | click (selector : String)
deriving DecidableEq

/-- One event of a login run: a browser action or a log line. -/
inductive LEvent where
  | act (a : BAct)
  | log (m : String)
deriving DecidableEq

/-- Project an event to its log line, if it is one. -/
def logOpt : LEvent → Option String
  | .log m => some m
  | .act _ => none

/-- Project an event to its browser action, if it is one. -/
def actOpt : LEvent → Option BAct
  | .act a => some a
  | .log _ => none

/-- The log lines among a list of events, in order. -/
def logsOf (evs : List LEvent) : List String :=
  evs.filterMap logOpt

/-- The browser actions among a list of events, in order. -/
def actsOf (evs : List LEvent) : List BAct :=
  evs.filterMap actOpt

/-- The LinkedIn branch's event sequence (lines 193-217) when no exception
interrupts it: conditional navigation (the URL test
`"linkedin.com" not in current_url` is case-sensitive), wait, fill username,
sleep, fill password, sleep, click submit, log, sleep. -/
def linkedinSeq (url username password : String) : List LEvent :=
  (if substrB "linkedin.com" url then []
   else [.act (.goto "https://www.linkedin.com/login")]) ++
  [.act .waitForLoad,
   .act (.fill "input#username" username), .act .sleep,
   .act (.fill "input#password" password), .act .sleep,
   .act (.click "button[type=\"submit\"]"),
   .log "Clicked sign in on LinkedIn.",
   .act .sleep]

/-- The Indeed branch's event sequence (lines 227-246); here the URL test
lowercases first (`page.url.lower()`). -/
def indeedSeq (url username password : String) : List LEvent :=
  (if substrB "indeed.com" (lowerStr url) then []
   else [.act (.goto "https://secure.indeed.com/account/login")]) ++
  [.act .waitForLoad,
   .act (.fill "input#login-email-input" username), .act .sleep,
   .act (.fill "input#login-password-input" password), .act .sleep,
   .act (.click "button[data-testid=\"login-submit-button\"]"),
   .log "Clicked sign in on Indeed.",
   .act .sleep]

/-- Environment of one `perform_login_flow` call: the current page URL and,
for each site branch, whether (and where) an exception interrupts the
`try` block — `some (n, m)` raises message `m` after the first `n` events
of the branch's sequence. -/
structure LoginEnv where
  currentUrl : String
  linkedinExc : Option (Nat × String)
  indeedExc : Option (Nat × String)

/-- Run one site branch: on no exception the full sequence runs and the
success message is logged and returned; an exception truncates the sequence
and converts to a failure outcome (logged). -/
def runSite (seq : List LEvent) (okMsg failPre : String)
    (exc : Option (Nat × String)) : List LEvent × ActionResult :=
  match exc with
  | none => (seq ++ [.log okMsg], .ok okMsg)
  | some (n, m) =>
      (seq.take n ++ [.log (failPre ++ m)], .err (failPre ++ m))

/-- `perform_login_flow(site_name, browser)`: normalize the site name
(`site_name.lower().strip()`), look the credentials up case-insensitively
(an absent site is an immediate error), fail on an incomplete entry, and
otherwise log the attempt, fetch the current page and run the site-specific
sequence; unrecognized sites report that no specialized flow exists.
Returns the events performed (browser actions and log lines) and the
outcome.  The `json.dumps`/`json.loads` round-trip of the credentials is the
identity in this model, so its unreachable parse-error branch is omitted. -/
def perform_login_flow (data : CredMap) (env : LoginEnv)
    (site_name : String) : List LEvent × ActionResult :=
  let lower := trimStr (lowerStr site_name)
  match get_site_login_credentials data lower with
  | (logs1, .inr m) => (logs1.map .log, .err m)
  | (logs1, .inl c) =>
      if c.username = "" || c.password = "" then
        let m := "Credentials incomplete for site " ++ lower
        (logs1.map .log ++ [.log m], .err m)
      else
        let pre := logs1.map LEvent.log ++
          [.log ("Attempting to login to " ++ lower ++ " with user '" ++
            c.username ++ "'"),
           .act .getCurrentPage]
        if lower = "linkedin" then
          let r := runSite (linkedinSeq env.currentUrl c.username c.password)
            ("Login attempt complete for LinkedIn user " ++ c.username)
            "Failed LinkedIn login flow: " env.linkedinExc
          (pre ++ r.1, r.2)
        else if lower = "indeed" then
          let r := runSite (indeedSeq env.currentUrl c.username c.password)
            ("Login attempt complete for Indeed user " ++ c.username)
            "Failed Indeed login flow: " env.indeedExc
          (pre ++ r.1, r.2)
        else
          let m := "No specialized login flow for site: " ++ lower
          (pre ++ [.log m], .err m)

/-! ## Helper lemmas -/

/-- The empty needle is an infix of every character list (Python: `"" in s`
is always `True`). -/
theorem isInfB_nil (l : List Char) : isInfB [] l = true := by
  cases l <;> simp [isInfB, isPrefB]

/-- The empty string is a substring of every string. -/
theorem substrB_nil (hay : String) : substrB "" hay = true := by
  simpa [substrB] using isInfB_nil hay.data

/-- `isErr` is the negation of `isOk`. -/
theorem ActionResult.isErr_eq_not_isOk (r : ActionResult) :
    r.isErr = !r.isOk := by
  cases r <;> rfl

/-! ## C3 and C10: the Field Locator -/

/-- The locator returns `none` exactly when no entry matches. -/
theorem find_highlight_eq_none_iff (m : List (Nat × DomEl))
    (fid lb : String) :
    find_highlight_index_for_field m fid lb = none ↔
      ∀ p ∈ m, fieldMatches fid lb p.2 = false := by
  induction m with
  | nil => simp [find_highlight_index_for_field]
  | cons hd tl ih =>
      obtain ⟨idx, el⟩ := hd
      by_cases h : fieldMatches fid lb el = true
      · simp [find_highlight_index_for_field, h]
      · simp only [Bool.not_eq_true] at h
        simp [find_highlight_index_for_field, h, ih]

/-- A list split at the first matching entry forces the locator's result. -/
theorem find_highlight_of_split (fid lb : String) :
    ∀ (l1 : List (Nat × DomEl)) (p : Nat × DomEl) (l2 : List (Nat × DomEl)),
      fieldMatches fid lb p.2 = true →
      (∀ q ∈ l1, fieldMatches fid lb q.2 = false) →
      find_highlight_index_for_field (l1 ++ p :: l2) fid lb = some p.1 := by
  intro l1
  induction l1 with
  | nil =>
      intro p l2 hp _
      obtain ⟨i, el⟩ := p
      simp [find_highlight_index_for_field, hp]
  | cons q l1' ih =>
      intro p l2 hp hq
      obtain ⟨qi, qe⟩ := q
      have hqf : fieldMatches fid lb qe = false := hq (qi, qe) (by simp)
      simp only [List.cons_append, find_highlight_index_for_field, hqf,
        Bool.false_eq_true, if_false]
      exact ih p l2 hp (fun r hr => hq r (by simp [hr]))

/-- The locator's `some` result comes from the first matching entry. -/
theorem find_highlight_split_of_some (fid lb : String) :
    ∀ (m : List (Nat × DomEl)) (i : Nat),
      find_highlight_index_for_field m fid lb = some i →
      ∃ l1 p l2, m = l1 ++ p :: l2 ∧ p.1 = i ∧
        fieldMatches fid lb p.2 = true ∧
        ∀ q ∈ l1, fieldMatches fid lb q.2 = false := by
  intro m
  induction m with
  | nil => intro i h; simp [find_highlight_index_for_field] at h
  | cons hd tl ih =>
      intro i h
      obtain ⟨idx, el⟩ := hd
      by_cases hm : fieldMatches fid lb el = true
      · simp only [find_highlight_index_for_field, hm, if_true,
          Option.some.injEq] at h
        exact ⟨[], (idx, el), tl, by simp, h, hm, by simp⟩
      · simp only [Bool.not_eq_true] at hm
        simp only [find_highlight_index_for_field, hm, Bool.false_eq_true,
          if_false] at h
        obtain ⟨l1, p, l2, hsplit, hp1, hp2, hl1⟩ := ih i h
        refine ⟨(idx, el) :: l1, p, l2, by simp [hsplit], hp1, hp2, ?_⟩
        intro q hq
        rcases List.mem_cons.mp hq with hq | hq
        · subst hq; exact hm
        · exact hl1 q hq

/-- **C3**: For every element index and required field, the Field Locator
returns `some i` where `i` is the first entry, in the index's natural
order, whose path/selector string contains the field's id
case-insensitively or whose rendered text contains the field's label
case-insensitively (`fieldMatches`), and returns `none` when no entry
matches. -/
theorem C3_field_locator_first_match (m : List (Nat × DomEl))
    (fid lb : String) (i : Nat) :
    (find_highlight_index_for_field m fid lb = none ↔
      ∀ p ∈ m, fieldMatches fid lb p.2 = false) ∧
    (find_highlight_index_for_field m fid lb = some i ↔
      ∃ l1 p l2, m = l1 ++ p :: l2 ∧ p.1 = i ∧
        fieldMatches fid lb p.2 = true ∧
        ∀ q ∈ l1, fieldMatches fid lb q.2 = false) := by
  refine ⟨find_highlight_eq_none_iff m fid lb, ?_, ?_⟩
  · exact find_highlight_split_of_some fid lb m i
  · rintro ⟨l1, p, l2, rfl, rfl, hp2, hl1⟩
    exact find_highlight_of_split fid lb l1 p l2 hp2 hl1

/-- Witness for C3 at a concrete selector map: the first (and only) entry
whose xpath contains the id `"Email-1"` case-insensitively is index 2. -/
theorem C3_field_locator_first_match_witness :
    find_highlight_index_for_field
      [(2, ⟨"//input[@id='email-1']", "x"⟩), (5, ⟨"//div", "email address"⟩)]
      "Email-1" "zzz" = some 2 := by
  refine (C3_field_locator_first_match
      [(2, ⟨"//input[@id='email-1']", "x"⟩), (5, ⟨"//div", "email address"⟩)]
      "Email-1" "zzz" 2).2.mpr ?_
  exact ⟨[], (2, ⟨"//input[@id='email-1']", "x"⟩), [(5, ⟨"//div", "email address"⟩)],
    rfl, rfl, by decide, by simp⟩

/-- **C10**: For every required field whose label is the empty string and
every non-empty element index, the Field Locator returns the first index in
iteration order unconditionally: the empty label is a substring of every
element's rendered text, so the id is never consulted and the result is
never `none`. -/
theorem C10_empty_label_matches_first (i : Nat) (el : DomEl)
    (rest : List (Nat × DomEl)) (fid : String) :
    find_highlight_index_for_field ((i, el) :: rest) fid "" = some i := by
  have hm : fieldMatches fid "" el = true := by
    have h0 : lowerStr "" = "" := rfl
    simp [fieldMatches, h0, substrB_nil]
  simp [find_highlight_index_for_field, hm]

/-! ## C1 and C8: the Retry/Verification Engine -/

/-- Success characterization of the retry loop: starting at `attempt` with
`fuel` iterations left (`attempt + fuel = maxRetries`), the loop succeeds
exactly when some remaining attempt reads back a value whose trim equals the
text's trim. -/
theorem inputLoop_isOk_iff (att : Nat → AttemptEv) (text : String)
    (index m : Nat) :
    ∀ fuel attempt, attempt + fuel = m →
      ((inputLoop att text index m attempt fuel).isOk = true ↔
        ∃ j, attempt ≤ j ∧ j < m ∧
          ∃ v, att j = .readBack v ∧ trimStr v = trimStr text) := by
  intro fuel
  induction fuel with
  | zero =>
      intro attempt hsum
      simp only [inputLoop, ActionResult.isOk, Bool.false_eq_true, false_iff]
      rintro ⟨j, hj1, hj2, -⟩
      omega
  | succ fuel ih =>
      intro attempt hsum
      cases hatt : att attempt with
      | locateFail =>
          by_cases hlast : attempt = m - 1
          · have hfuel : fuel = 0 := by omega
            subst hfuel
            have hres : inputLoop att text index m attempt (0 + 1) =
                .err (locateFailMsg index) := by
              simp only [inputLoop, hatt, if_pos hlast]
            rw [hres]
            simp only [ActionResult.isOk, Bool.false_eq_true, false_iff]
            rintro ⟨j, hj1, hj2, v, hv, -⟩
            have hj : j = attempt := by omega
            subst hj
            rw [hatt] at hv
            exact AttemptEv.noConfusion hv
          · simp only [inputLoop, hatt, hlast, if_false]
            rw [ih (attempt + 1) (by omega)]
            constructor
            · rintro ⟨j, hj1, hj2, hv⟩
              exact ⟨j, by omega, hj2, hv⟩
            · rintro ⟨j, hj1, hj2, v, hv, htr⟩
              rcases Nat.eq_or_lt_of_le hj1 with rfl | hlt
              · rw [hatt] at hv
                exact absurd hv (by simp)
              · exact ⟨j, by omega, hj2, v, hv, htr⟩
      | exc msg =>
          by_cases hlast : attempt = m - 1
          · have hfuel : fuel = 0 := by omega
            subst hfuel
            have hres : inputLoop att text index m attempt (0 + 1) =
                .err msg := by
              simp only [inputLoop, hatt, if_pos hlast]
            rw [hres]
            simp only [ActionResult.isOk, Bool.false_eq_true, false_iff]
            rintro ⟨j, hj1, hj2, v, hv, -⟩
            have hj : j = attempt := by omega
            subst hj
            rw [hatt] at hv
            exact AttemptEv.noConfusion hv
          · simp only [inputLoop, hatt, hlast, if_false]
            rw [ih (attempt + 1) (by omega)]
            constructor
            · rintro ⟨j, hj1, hj2, hv⟩
              exact ⟨j, by omega, hj2, hv⟩
            · rintro ⟨j, hj1, hj2, v, hv, htr⟩
              rcases Nat.eq_or_lt_of_le hj1 with rfl | hlt
              · rw [hatt] at hv
                exact absurd hv (by simp)
              · exact ⟨j, by omega, hj2, v, hv, htr⟩
      | readBack v =>
          by_cases htr : trimStr v = trimStr text
          · simp only [inputLoop, hatt, htr, if_true, ActionResult.isOk,
              true_iff]
            exact ⟨attempt, Nat.le_refl _, by omega, v, hatt, htr⟩
          · simp only [inputLoop, hatt, htr, if_false]
            rw [ih (attempt + 1) (by omega)]
            constructor
            · rintro ⟨j, hj1, hj2, hv⟩
              exact ⟨j, by omega, hj2, hv⟩
            · rintro ⟨j, hj1, hj2, w, hw, htw⟩
              rcases Nat.eq_or_lt_of_le hj1 with rfl | hlt
              · rw [hatt] at hw
                cases hw
                exact absurd htw htr
              · exact ⟨j, by omega, hj2, w, hw, htw⟩

/-- The retry loop consults only the attempts inside its window. -/
theorem inputLoop_congr (att att' : Nat → AttemptEv) (text : String)
    (index m : Nat) :
    ∀ fuel attempt,
      (∀ j, attempt ≤ j → j < attempt + fuel → att j = att' j) →
      inputLoop att text index m attempt fuel =
        inputLoop att' text index m attempt fuel := by
  intro fuel
  induction fuel with
  | zero => intro attempt _; rfl
  | succ fuel ih =>
      intro attempt hagree
      have h0 : att attempt = att' attempt :=
        hagree attempt (Nat.le_refl _) (by omega)
      have hrec := ih (attempt + 1) (fun j hj1 hj2 => hagree j (by omega) (by omega))
      simp only [inputLoop, ← h0]
      cases att attempt <;> simp only [hrec]

/-- **C1**: For every element index and text, `input_text_with_retry` makes
at most `max_retries` (default 3) attempts — the result depends only on the
first `max_retries` attempt outcomes; it returns a success outcome iff some
attempt reads back a value equal, after trimming, to the intended text;
exhausting all attempts without a trimmed match yields an error outcome;
and an index absent from the selector map yields an error outcome
immediately, independent of any attempt. -/
theorem C1_input_text_with_retry_spec (att : Nat → AttemptEv) (b : Bool)
    (index m : Nat) (text : String) :
    (input_text_with_retry ⟨false, att⟩ index text m =
      .err (noElementMsg index)) ∧
    ((input_text_with_retry ⟨b, att⟩ index text m).isOk = true ↔
      (b = true ∧ ∃ j, j < m ∧
        ∃ v, att j = .readBack v ∧ trimStr v = trimStr text)) ∧
    ((input_text_with_retry ⟨b, att⟩ index text m).isErr = true ↔
      ¬(b = true ∧ ∃ j, j < m ∧
        ∃ v, att j = .readBack v ∧ trimStr v = trimStr text)) ∧
    (input_text_with_retry ⟨b, att⟩ index text m =
      input_text_with_retry
        ⟨b, fun j => if j < m then att j else .locateFail⟩ index text m) ∧
    (input_text_with_retry ⟨b, att⟩ index text =
      input_text_with_retry ⟨b, att⟩ index text 3) := by
  have hmain : (input_text_with_retry ⟨b, att⟩ index text m).isOk = true ↔
      (b = true ∧ ∃ j, j < m ∧
        ∃ v, att j = .readBack v ∧ trimStr v = trimStr text) := by
    cases b with
    | false =>
        simp [input_text_with_retry, ActionResult.isOk]
    | true =>
        simp only [input_text_with_retry, if_true, true_and]
        rw [inputLoop_isOk_iff att text index m m 0 (by omega)]
        constructor
        · rintro ⟨j, -, hj2, hv⟩; exact ⟨j, hj2, hv⟩
        · rintro ⟨j, hj2, hv⟩; exact ⟨j, Nat.zero_le _, hj2, hv⟩
  refine ⟨by simp [input_text_with_retry], hmain, ?_, ?_, rfl⟩
  · rw [ActionResult.isErr_eq_not_isOk, ← hmain]
    cases (input_text_with_retry ⟨b, att⟩ index text m).isOk <;> simp
  · cases b with
    | false => simp [input_text_with_retry]
    | true =>
        simp only [input_text_with_retry, if_true]
        refine inputLoop_congr att _ text index m m 0 ?_
        intro j _ hj2
        have hjm : j < m := by omega
        simp [hjm]

/-- Witness for C1: a read-back of `" Jane Doe "` against text
`"Jane Doe"` matches after trimming, so the call succeeds. -/
theorem C1_input_text_with_retry_spec_witness :
    (input_text_with_retry
      ⟨true, fun _ => .readBack " Jane Doe "⟩ 7 "Jane Doe" 3).isOk = true := by
  refine (C1_input_text_with_retry_spec
      (fun _ => .readBack " Jane Doe ") true 7 3 "Jane Doe").2.1.mpr ?_
  exact ⟨rfl, 0, by omega, " Jane Doe ", rfl, by decide⟩

/-- **C8**: `input_text_with_retry` is idempotent on success.  An unchanged
field is modelled by a deterministic environment that always reads back the
same value `v` after typing: if a call on it returns success then the
trimmed read-back equals the trimmed text, the repeated call returns the
same success, and it succeeds even with a budget of one attempt (i.e. on
its first attempt). -/
theorem C8_idempotent_on_success (v text : String) (index : Nat)
    (hsucc : (input_text_with_retry
      ⟨true, fun _ => .readBack v⟩ index text).isOk = true) :
    trimStr v = trimStr text ∧
    input_text_with_retry ⟨true, fun _ => .readBack v⟩ index text =
      .ok (inputOkMsg text index) ∧
    input_text_with_retry ⟨true, fun _ => .readBack v⟩ index text 1 =
      .ok (inputOkMsg text index) := by
  have htr : trimStr v = trimStr text := by
    have h := (inputLoop_isOk_iff (fun _ => .readBack v) text index 3 3 0
      (by omega)).mp (by simpa [input_text_with_retry] using hsucc)
    obtain ⟨j, -, -, w, hw, htw⟩ := h
    cases hw
    exact htw
  refine ⟨htr, ?_, ?_⟩ <;> simp [input_text_with_retry, inputLoop, htr]

/-- Witness for C8: with the read-back `" Jane Doe "` the first call
succeeds, hence the repeated call succeeds within a single attempt. -/
theorem C8_idempotent_on_success_witness :
    trimStr " Jane Doe " = trimStr "Jane Doe" ∧
    input_text_with_retry
      ⟨true, fun _ => .readBack " Jane Doe "⟩ 7 "Jane Doe" 1 =
      .ok (inputOkMsg "Jane Doe" 7) := by
  have h := C8_idempotent_on_success " Jane Doe " "Jane Doe" 7 (by decide)
  exact ⟨h.1, h.2.2⟩

/-! ## C4 and C5: the Form Progress Loop -/

/-- The round counter never exceeds the starting count plus the fuel. -/
theorem fillLoop_rounds_le (disc : Nat → Discovery) :
    ∀ fuel rc acc, (fillLoop disc rc fuel acc).rounds ≤ rc + fuel := by
  intro fuel
  induction fuel with
  | zero => intro rc acc; simp [fillLoop]
  | succ fuel ih =>
      intro rc acc
      cases hd : disc (rc + 1) with
      | err msg => simp [fillLoop, hd]
      | noContent => simp [fillLoop, hd]
      | badJson => simp [fillLoop, hd]
      | fields l =>
          cases l with
          | nil => simp [fillLoop, hd]
          | cons f fs =>
              have := ih (rc + 1) (acc ++ (f :: fs))
              simp only [fillLoop, hd]
              omega

/-- If every remaining round reports progress, the loop exhausts its fuel
and exits through the round budget. -/
theorem fillLoop_budget (disc : Nat → Discovery) :
    ∀ fuel rc acc,
      (∀ s, rc < s → s ≤ rc + fuel → isProgress (disc s) = true) →
      (fillLoop disc rc fuel acc).reason = .budget ∧
        (fillLoop disc rc fuel acc).rounds = rc + fuel := by
  intro fuel
  induction fuel with
  | zero => intro rc acc _; simp [fillLoop]
  | succ fuel ih =>
      intro rc acc hall
      have h1 : isProgress (disc (rc + 1)) = true :=
        hall (rc + 1) (by omega) (by omega)
      cases hd : disc (rc + 1) with
      | err msg => rw [hd] at h1; simp [isProgress] at h1
      | noContent => rw [hd] at h1; simp [isProgress] at h1
      | badJson => rw [hd] at h1; simp [isProgress] at h1
      | fields l =>
          cases l with
          | nil => rw [hd] at h1; simp [isProgress] at h1
          | cons f fs =>
              have := ih (rc + 1) (acc ++ (f :: fs))
                (fun s hs1 hs2 => hall s (by omega) (by omega))
              simp only [fillLoop, hd]
              constructor
              · exact this.1
              · rw [this.2]; omega

/-- If `r` is the first remaining round whose discovery does not report
progress, the loop exits at round `r` with the reason determined by that
round's discovery result. -/
theorem fillLoop_early_exit (disc : Nat → Discovery) :
    ∀ fuel rc acc r,
      rc < r → r ≤ rc + fuel →
      (∀ s, rc < s → s < r → isProgress (disc s) = true) →
      isProgress (disc r) = false →
      (fillLoop disc rc fuel acc).reason = exitOf (disc r) ∧
        (fillLoop disc rc fuel acc).rounds = r := by
  intro fuel
  induction fuel with
  | zero => intro rc acc r h1 h2 _ _; omega
  | succ fuel ih =>
      intro rc acc r h1 h2 hprev hr
      by_cases hfirst : r = rc + 1
      · subst hfirst
        cases hd : disc (rc + 1) with
        | err msg => simp [fillLoop, hd, exitOf]
        | noContent => simp [fillLoop, hd, exitOf]
        | badJson => simp [fillLoop, hd, exitOf]
        | fields l =>
            cases l with
            | nil => simp [fillLoop, hd, exitOf]
            | cons f fs => rw [hd] at hr; simp [isProgress] at hr
      · have hprog : isProgress (disc (rc + 1)) = true :=
          hprev (rc + 1) (by omega) (by omega)
        cases hd : disc (rc + 1) with
        | err msg => rw [hd] at hprog; simp [isProgress] at hprog
        | noContent => rw [hd] at hprog; simp [isProgress] at hprog
        | badJson => rw [hd] at hprog; simp [isProgress] at hprog
        | fields l =>
            cases l with
            | nil => rw [hd] at hprog; simp [isProgress] at hprog
            | cons f fs =>
                simp only [fillLoop, hd]
                exact ih (rc + 1) (acc ++ (f :: fs)) r (by omega) (by omega)
                  (fun s hs1 hs2 => hprev s (by omega) hs2) hr

/-- `exitOf` never produces the budget reason. -/
theorem exitOf_ne_budget (d : Discovery) : exitOf d ≠ .budget := by
  cases d <;> simp [exitOf]

/-- **C4**: The Form Progress Loop always terminates after at most 25
rounds (the embedding is a total function and its round count is bounded by
25); whenever discovery first returns an error, empty content, unparseable
JSON, or an empty unfilled-field list at round `r`, the loop exits at round
`r` with the corresponding non-budget reason — a plain `break`, not a
raised error; and if every round up to 25 keeps returning unfilled fields,
the loop exits through the round budget at round 25, again by returning
normally. -/
theorem C4_loop_terminates_within_budget (disc : Nat → Discovery) (r : Nat)
    (h1 : 1 ≤ r) (h2 : r ≤ 25)
    (hprev : ∀ s, 1 ≤ s → s < r → isProgress (disc s) = true) :
    (fill_fields_iteratively disc).rounds ≤ 25 ∧
    (isProgress (disc r) = false →
      (fill_fields_iteratively disc).reason = exitOf (disc r) ∧
      (fill_fields_iteratively disc).rounds = r ∧
      (fill_fields_iteratively disc).reason ≠ .budget) ∧
    ((∀ s, 1 ≤ s → s ≤ 25 → isProgress (disc s) = true) →
      (fill_fields_iteratively disc).reason = .budget ∧
      (fill_fields_iteratively disc).rounds = 25) := by
  refine ⟨by simpa using fillLoop_rounds_le disc 25 0 [], ?_, ?_⟩
  · intro hr
    have h := fillLoop_early_exit disc 25 0 [] r (by omega) (by omega)
      (fun s hs1 hs2 => hprev s (by omega) hs2) hr
    refine ⟨h.1, h.2, ?_⟩
    intro hcontra
    exact exitOf_ne_budget (disc r) (h.1.symm.trans hcontra)
  · intro hall
    simpa using fillLoop_budget disc 25 0 []
      (fun s hs1 hs2 => hall s (by omega) (by omega))

/-- Witness for C4: discovery returns one unfilled field in round 1 and
empty content in round 2, so the loop exits at round 2 with the no-content
reason. -/
theorem C4_loop_terminates_within_budget_witness :
    (fill_fields_iteratively
      (fun r => if r = 1 then .fields [⟨"a", "text", "b"⟩]
        else .noContent)).reason = .noContent ∧
    (fill_fields_iteratively
      (fun r => if r = 1 then .fields [⟨"a", "text", "b"⟩]
        else .noContent)).rounds = 2 := by
  have h := (C4_loop_terminates_within_budget
      (fun r => if r = 1 then .fields [⟨"a", "text", "b"⟩] else .noContent)
      2 (by omega) (by omega)
      (by
        intro s hs1 hs2
        have hs : s = 1 := by omega
        subst hs
        decide)).2.1 (by decide)
  exact ⟨h.1.trans (by decide), h.2.1⟩

/-- **C5 counterexample**: with discovery returning the identical non-empty
unfilled-field set every round (in particular in rounds 1 and 2, with no
field changing state), the loop does *not* terminate early: it keeps
iterating until the 25-round budget.  This falsifies the claim that the
loop detects the lack of progress and terminates before the budget. -/
theorem C5_no_progress_counterexample :
    ((fun _ => Discovery.fields [⟨"email-1", "text", "Email Address"⟩]) :
        Nat → Discovery) 1 =
      ((fun _ => Discovery.fields [⟨"email-1", "text", "Email Address"⟩]) :
        Nat → Discovery) 2 ∧
    isProgress (Discovery.fields [⟨"email-1", "text", "Email Address"⟩]) =
      true ∧
    (fill_fields_iteratively
      (fun _ => Discovery.fields [⟨"email-1", "text", "Email Address"⟩])).reason
      = .budget ∧
    (fill_fields_iteratively
      (fun _ => Discovery.fields [⟨"email-1", "text", "Email Address"⟩])).rounds
      = 25 := by
  refine ⟨rfl, rfl, ?_, ?_⟩ <;> decide

/-- **C5 (amended)**: the loop performs no repeated-set / no-progress
detection at all; whenever discovery keeps returning a non-empty
unfilled-field list (the repeated identical set being a special case), the
loop iterates until the 25-round budget, which is the sole guarantee
against an infinite loop. -/
theorem C5_budget_is_only_bound (disc : Nat → Discovery)
    (h : ∀ s, 1 ≤ s → s ≤ 25 → isProgress (disc s) = true) :
    (fill_fields_iteratively disc).reason = .budget ∧
    (fill_fields_iteratively disc).rounds = 25 := by
  simpa using fillLoop_budget disc 25 0 []
    (fun s hs1 hs2 => h s (by omega) (by omega))

/-- Witness for the amended C5 at the constant discovery oracle. -/
theorem C5_budget_is_only_bound_witness :
    (fill_fields_iteratively
      (fun _ => Discovery.fields [⟨"q7", "select", "Favorite color"⟩])).reason
      = .budget ∧
    (fill_fields_iteratively
      (fun _ => Discovery.fields [⟨"q7", "select", "Favorite color"⟩])).rounds
      = 25 :=
  C5_budget_is_only_bound
    (fun _ => Discovery.fields [⟨"q7", "select", "Favorite color"⟩])
    (fun _ _ _ => rfl)

/-! ## C7: the keyboard-navigation stage -/

/-- Does the polling loop's read at iteration `j` satisfy the Enter
condition? -/
def kbHitAt (read : Nat → KbRead) (text : String) (j : Nat) : Bool :=
  match read j with
  | .val c => kbHit text c
  | .exc _ => false

/-- Does the read at iteration `j` raise an exception? -/
def kbReadExc (read : Nat → KbRead) (j : Nat) : Bool :=
  match read j with
  | .exc _ => true
  | .val _ => false

/-- The polling loop succeeds at iteration `a` exactly when `a` lies in the
remaining window, the read at `a` satisfies the Enter condition, and no
earlier read in the window hits or raises. -/
theorem kbLoop_success_iff (read : Nat → KbRead) (text : String) :
    ∀ fuel attempt a,
      ((kbLoop read text attempt fuel).1 = .success a ↔
        (attempt ≤ a ∧ a < attempt + fuel ∧ kbHitAt read text a = true ∧
          ∀ j, attempt ≤ j → j < a →
            kbHitAt read text j = false ∧ kbReadExc read j = false)) := by
  intro fuel
  induction fuel with
  | zero =>
      intro attempt a
      constructor
      · intro h; simp [kbLoop] at h
      · rintro ⟨h1, h2, -, -⟩; omega
  | succ fuel ih =>
      intro attempt a
      cases hr : read attempt with
      | exc m =>
          have hres : (kbLoop read text attempt (fuel + 1)).1 = .exc m := by
            simp [kbLoop, hr]
          rw [hres]
          constructor
          · intro h; exact KbOut.noConfusion h
          · rintro ⟨h1, h2, h3, h4⟩
            rcases Nat.eq_or_lt_of_le h1 with rfl | hlt
            · simp [kbHitAt, hr] at h3
            · have := (h4 attempt (Nat.le_refl _) hlt).2
              simp [kbReadExc, hr] at this
      | val c =>
          by_cases hh : kbHit text c = true
          · have hres : (kbLoop read text attempt (fuel + 1)).1 =
                .success attempt := by
              simp [kbLoop, hr, hh]
            rw [hres]
            constructor
            · intro h
              cases h
              exact ⟨Nat.le_refl _, by omega, by simp [kbHitAt, hr, hh],
                fun j hj1 hj2 => absurd (Nat.lt_of_le_of_lt hj1 hj2)
                  (Nat.lt_irrefl _)⟩
            · rintro ⟨h1, h2, h3, h4⟩
              rcases Nat.eq_or_lt_of_le h1 with rfl | hlt
              · rfl
              · have := (h4 attempt (Nat.le_refl _) hlt).1
                simp [kbHitAt, hr, hh] at this
          · simp only [Bool.not_eq_true] at hh
            have hres : (kbLoop read text attempt (fuel + 1)).1 =
                (kbLoop read text (attempt + 1) fuel).1 := by
              simp [kbLoop, hr, hh]
            rw [hres, ih (attempt + 1) a]
            constructor
            · rintro ⟨h1, h2, h3, h4⟩
              refine ⟨by omega, by omega, h3, ?_⟩
              intro j hj1 hj2
              rcases Nat.eq_or_lt_of_le hj1 with rfl | hlt
              · exact ⟨by simp [kbHitAt, hr, hh], by simp [kbReadExc, hr]⟩
              · exact h4 j (by omega) hj2
            · rintro ⟨h1, h2, h3, h4⟩
              rcases Nat.eq_or_lt_of_le h1 with rfl | hlt
              · simp [kbHitAt, hr, hh] at h3
              · exact ⟨by omega, by omega, h3,
                  fun j hj1 hj2 => h4 j (by omega) hj2⟩

/-- On success at iteration `a`, the keys pressed are the window's arrow
keys up to `a` followed by Enter. -/
theorem kbLoop_keys_of_success (read : Nat → KbRead) (text : String) :
    ∀ fuel attempt a,
      (kbLoop read text attempt fuel).1 = .success a →
      (kbLoop read text attempt fuel).2 =
        (List.range' attempt (a - attempt)).map
          (fun j => KbAct.press (kbKey j)) ++ [.press .enter] := by
  intro fuel
  induction fuel with
  | zero => intro attempt a h; simp [kbLoop] at h
  | succ fuel ih =>
      intro attempt a h
      cases hr : read attempt with
      | exc m => simp [kbLoop, hr] at h
      | val c =>
          by_cases hh : kbHit text c = true
          · have ha : a = attempt := by
              simp [kbLoop, hr, hh] at h
              exact h.symm
            subst ha
            simp [kbLoop, hr, hh]
          · simp only [Bool.not_eq_true] at hh
            have hstep : kbLoop read text attempt (fuel + 1) =
                ((kbLoop read text (attempt + 1) fuel).1,
                  .press (kbKey attempt) ::
                    (kbLoop read text (attempt + 1) fuel).2) := by
              simp [kbLoop, hr, hh]
            rw [hstep] at h ⊢
            simp only at h ⊢
            have ha : attempt + 1 ≤ a :=
              ((kbLoop_success_iff read text fuel (attempt + 1) a).mp h).1
            rw [ih (attempt + 1) a h]
            have hsub : a - attempt = (a - (attempt + 1)) + 1 := by omega
            rw [hsub, List.range'_succ]
            simp

/-- When no read in the window hits or raises, the loop exhausts the window
pressing the arrow key of every iteration. -/
theorem kbLoop_exhausts (read : Nat → KbRead) (text : String) :
    ∀ fuel attempt,
      (∀ j, attempt ≤ j → j < attempt + fuel →
        kbHitAt read text j = false ∧ kbReadExc read j = false) →
      kbLoop read text attempt fuel =
        (.exhausted,
          (List.range' attempt fuel).map (fun j => KbAct.press (kbKey j))) := by
  intro fuel
  induction fuel with
  | zero => intro attempt _; simp [kbLoop]
  | succ fuel ih =>
      intro attempt hall
      have h0 := hall attempt (Nat.le_refl _) (by omega)
      cases hr : read attempt with
      | exc m => simp [kbReadExc, hr] at h0
      | val c =>
          have hh : kbHit text c = false := by
            have := h0.1
            simpa [kbHitAt, hr] using this
          have hrec := ih (attempt + 1)
            (fun j hj1 hj2 => hall j (by omega) (by omega))
          simp [kbLoop, hr, hh, hrec, List.range'_succ]

/-- The polling loop presses at most `fuel` keys before Enter, so at most
`fuel` iterations run. -/
theorem kbLoop_length_le (read : Nat → KbRead) (text : String) :
    ∀ fuel attempt, (kbLoop read text attempt fuel).2.length ≤ fuel := by
  intro fuel
  induction fuel with
  | zero => intro attempt; simp [kbLoop]
  | succ fuel ih =>
      intro attempt
      cases hr : read attempt with
      | exc m => simp [kbLoop, hr]
      | val c =>
          by_cases hh : kbHit text c = true
          · simp [kbLoop, hr, hh]
          · simp only [Bool.not_eq_true] at hh
            have := ih (attempt + 1)
            simp [kbLoop, hr, hh]
            omega

/-- **C7 counterexample**: the claim's strict reading fails on the code in
two ways.  (1) With no option ever highlighted, the first two key presses
are both ArrowDown — the loop presses ArrowDown for the whole first half of
its iterations and ArrowUp for the second half, so the presses do not
alternate.  (2) With an empty target text and an empty highlighted text,
the highlighted text *does* contain the target as a (case-insensitive)
substring, yet Python's truthiness test rejects the empty string, no Enter
is pressed, and the stage exhausts instead of succeeding. -/
theorem C7_keyboard_nav_counterexample :
    ((kbLoop (fun _ => KbRead.val none) "Yes" 0 30).2.take 2 =
      [.press .arrowDown, .press .arrowDown]) ∧
    ((kbLoop (fun _ => KbRead.val (some "")) "" 0 30).1 = .exhausted ∧
      substrB (lowerStr "") (lowerStr "") = true) := by
  refine ⟨?_, ?_, ?_⟩ <;> decide

/-- **C7 (amended)**: the keyboard-navigation stage types the first (up to)
3 characters of the target value and polls at most 30 iterations, reading
the currently highlighted option's text at the start of each iteration; it
presses Enter and reports success exactly at the first iteration whose
highlighted text is non-empty and contains the target as a case-insensitive
substring (no earlier iteration hitting or raising); every iteration before
that presses the iteration's arrow key — ArrowDown on iterations 0-14 and
ArrowUp on iterations 15-29 (not a strict alternation); exhausting all 30
iterations presses all 30 arrow keys and reports no success.  The default
dropdown value for an unrecognized label such as "Favorite color" is
"Yes". -/
theorem C7_keyboard_nav_spec (read : Nat → KbRead) (text : String)
    (a : Nat) :
    ((kbStage none read text).2.head? =
      some (.typeChars (takeStr text 3))) ∧
    ((kbLoop read text 0 30).1 = .success a ↔
      (a < 30 ∧ kbHitAt read text a = true ∧
        ∀ j, j < a → kbHitAt read text j = false ∧ kbReadExc read j = false)) ∧
    ((kbLoop read text 0 30).1 = .success a →
      (kbLoop read text 0 30).2 =
        (List.range a).map (fun j => KbAct.press (kbKey j)) ++
          [.press .enter]) ∧
    ((∀ j, j < 30 → kbHitAt read text j = false ∧ kbReadExc read j = false) →
      kbLoop read text 0 30 =
        (.exhausted, (List.range 30).map (fun j => KbAct.press (kbKey j)))) ∧
    ((kbLoop read text 0 30).2.length ≤ 30) ∧
    (∀ j, kbKey j = if j < 15 then .arrowDown else .arrowUp) ∧
    selectChoice "Favorite color" = "Yes" := by
  refine ⟨by simp [kbStage], ?_, ?_, ?_, kbLoop_length_le read text 30 0,
    fun j => rfl, by decide⟩
  · rw [kbLoop_success_iff read text 30 0 a]
    constructor
    · rintro ⟨-, h2, h3, h4⟩
      exact ⟨by omega, h3, fun j hj => h4 j (Nat.zero_le _) hj⟩
    · rintro ⟨h2, h3, h4⟩
      exact ⟨Nat.zero_le _, by omega, h3, fun j _ hj => h4 j hj⟩
  · intro h
    have := kbLoop_keys_of_success read text 30 0 a h
    simpa [List.range_eq_range'] using this
  · intro h
    have := kbLoop_exhausts read text 30 0
      (fun j _ hj => h j (by omega))
    simpa [List.range_eq_range'] using this

/-- Witness for the amended C7: the highlighted text `"yes sir"` at
iteration 2 contains `"Yes"` case-insensitively, so the loop presses
ArrowDown twice and then Enter, succeeding at iteration 2. -/
theorem C7_keyboard_nav_spec_witness :
    (kbLoop (fun j => if j = 2 then KbRead.val (some "yes sir")
      else KbRead.val none) "Yes" 0 30).1 = .success 2 ∧
    (kbLoop (fun j => if j = 2 then KbRead.val (some "yes sir")
      else KbRead.val none) "Yes" 0 30).2 =
      (List.range 2).map (fun j => KbAct.press (kbKey j)) ++
        [.press .enter] := by
  have h := C7_keyboard_nav_spec
    (fun j => if j = 2 then KbRead.val (some "yes sir")
      else KbRead.val none) "Yes" 2
  have hs : (kbLoop (fun j => if j = 2 then KbRead.val (some "yes sir")
      else KbRead.val none) "Yes" 0 30).1 = .success 2 :=
    h.2.1.mpr ⟨by omega, by decide, by
      intro j hj
      interval_cases j <;> exact ⟨by decide, by decide⟩⟩
  exact ⟨hs, h.2.2.1 hs⟩

/-! ## C2: order and short-circuiting of the dropdown fallback chain -/

/-- **C2**: Under the chain's preconditions (index present, element
locatable, opening click succeeds) the stages run strictly in source order —
the attempted-stage trace is always a prefix of the full chain; the first
stage that reports success short-circuits the chain with its success
message and trace; a later stage runs only when every earlier stage failed
to report success; and when every stage is exhausted without success (the
final typing fallback raising) the operation returns a failure outcome
after having attempted the whole chain. -/
theorem C2_fallback_chain_order (env : DropEnv) (index : Nat) (text : String)
    (h1 : env.inMap = true) (h2 : env.locateOk = true)
    (h3 : env.openClickExc = none) :
    (∃ rest, (custom_select_dropdown_option env index text).2 ++ rest =
      stageChain) ∧
    (kbSucceedsB env text = true →
      ∃ a, custom_select_dropdown_option env index text =
        (.ok (kbOkMsg text a), [.scrollIntoView, .openClick, .keyboardNav])) ∧
    (kbSucceedsB env text = false → csSucceedsB env = true →
      custom_select_dropdown_option env index text =
        (.ok (csOkMsg text),
          [.scrollIntoView, .openClick, .keyboardNav, .containerScroll])) ∧
    (kbSucceedsB env text = false → csSucceedsB env = false →
      env.finalExc = none →
      custom_select_dropdown_option env index text =
        (.ok (teOkMsg text), stageChain)) ∧
    (∀ e, kbSucceedsB env text = false → csSucceedsB env = false →
      env.finalExc = some e →
      (custom_select_dropdown_option env index text).1.isErr = true ∧
      (custom_select_dropdown_option env index text).2 = stageChain) := by
  cases hkb : (kbStage env.kbPre env.kbRead text).1 with
  | success a =>
      have hks : kbSucceedsB env text = true := by simp [kbSucceedsB, hkb]
      refine ⟨⟨[.containerScroll, .typeEnter],
        by simp [custom_select_dropdown_option, h1, h2, h3, hkb, stageChain]⟩,
        ?_, ?_, ?_, ?_⟩
      · intro _
        exact ⟨a, by simp [custom_select_dropdown_option, h1, h2, h3, hkb]⟩
      · intro h; rw [hks] at h; simp at h
      · intro h; rw [hks] at h; simp at h
      · intro e h; rw [hks] at h; simp at h
  | exhausted =>
      have hks : kbSucceedsB env text = false := by simp [kbSucceedsB, hkb]
      cases hsf : env.scrollFind with
      | found =>
          cases hfc : firstSelClick env.selClick with
          | some i =>
              have hcss : csSucceedsB env = true := by
                simp [csSucceedsB, hsf, hfc]
              refine ⟨⟨[.typeEnter],
                by simp [custom_select_dropdown_option, h1, h2, h3, hkb, hsf,
                  hfc, stageChain]⟩, ?_, ?_, ?_, ?_⟩
              · intro h; rw [hks] at h; simp at h
              · intro _ _
                simp [custom_select_dropdown_option, h1, h2, h3, hkb, hsf, hfc]
              · intro _ h _; rw [hcss] at h; simp at h
              · intro e _ h _; rw [hcss] at h; simp at h
          | none =>
              have hcss : csSucceedsB env = false := by
                simp [csSucceedsB, hsf, hfc]
              cases hfe : env.finalExc with
              | none =>
                  refine ⟨⟨[],
                    by simp [custom_select_dropdown_option, h1, h2, h3, hkb,
                      hsf, hfc, dropFinal, hfe, stageChain]⟩, ?_, ?_, ?_, ?_⟩
                  · intro h; rw [hks] at h; simp at h
                  · intro _ h; rw [hcss] at h; simp at h
                  · intro _ _ _
                    simp [custom_select_dropdown_option, h1, h2, h3, hkb, hsf,
                      hfc, dropFinal, hfe, stageChain]
                  · intro e _ _ hfe2; exact Option.noConfusion hfe2
              | some e0 =>
                  refine ⟨⟨[],
                    by simp [custom_select_dropdown_option, h1, h2, h3, hkb,
                      hsf, hfc, dropFinal, hfe, stageChain]⟩, ?_, ?_, ?_, ?_⟩
                  · intro h; rw [hks] at h; simp at h
                  · intro _ h; rw [hcss] at h; simp at h
                  · intro _ _ hfe2; exact Option.noConfusion hfe2
                  · intro e _ _ _
                    exact ⟨by simp [custom_select_dropdown_option, h1, h2, h3,
                        hkb, hsf, hfc, dropFinal, hfe, ActionResult.isErr],
                      by simp [custom_select_dropdown_option, h1, h2, h3, hkb,
                        hsf, hfc, dropFinal, hfe, stageChain]⟩
      | notFound =>
          have hcss : csSucceedsB env = false := by simp [csSucceedsB, hsf]
          cases hfe : env.finalExc with
          | none =>
              refine ⟨⟨[],
                by simp [custom_select_dropdown_option, h1, h2, h3, hkb, hsf,
                  dropFinal, hfe, stageChain]⟩, ?_, ?_, ?_, ?_⟩
              · intro h; rw [hks] at h; simp at h
              · intro _ h; rw [hcss] at h; simp at h
              · intro _ _ _
                simp [custom_select_dropdown_option, h1, h2, h3, hkb, hsf,
                  dropFinal, hfe, stageChain]
              · intro e _ _ hfe2; exact Option.noConfusion hfe2
          | some e0 =>
              refine ⟨⟨[],
                by simp [custom_select_dropdown_option, h1, h2, h3, hkb, hsf,
                  dropFinal, hfe, stageChain]⟩, ?_, ?_, ?_, ?_⟩
              · intro h; rw [hks] at h; simp at h
              · intro _ h; rw [hcss] at h; simp at h
              · intro _ _ hfe2; exact Option.noConfusion hfe2
              · intro e _ _ _
                exact ⟨by simp [custom_select_dropdown_option, h1, h2, h3,
                    hkb, hsf, dropFinal, hfe, ActionResult.isErr],
                  by simp [custom_select_dropdown_option, h1, h2, h3, hkb,
                    hsf, dropFinal, hfe, stageChain]⟩
      | exc m =>
          have hcss : csSucceedsB env = false := by simp [csSucceedsB, hsf]
          cases hfe : env.finalExc with
          | none =>
              refine ⟨⟨[],
                by simp [custom_select_dropdown_option, h1, h2, h3, hkb, hsf,
                  dropFinal, hfe, stageChain]⟩, ?_, ?_, ?_, ?_⟩
              · intro h; rw [hks] at h; simp at h
              · intro _ h; rw [hcss] at h; simp at h
              · intro _ _ _
                simp [custom_select_dropdown_option, h1, h2, h3, hkb, hsf,
                  dropFinal, hfe, stageChain]
              · intro e _ _ hfe2; exact Option.noConfusion hfe2
          | some e0 =>
              refine ⟨⟨[],
                by simp [custom_select_dropdown_option, h1, h2, h3, hkb, hsf,
                  dropFinal, hfe, stageChain]⟩, ?_, ?_, ?_, ?_⟩
              · intro h; rw [hks] at h; simp at h
              · intro _ h; rw [hcss] at h; simp at h
              · intro _ _ hfe2; exact Option.noConfusion hfe2
              · intro e _ _ _
                exact ⟨by simp [custom_select_dropdown_option, h1, h2, h3,
                    hkb, hsf, dropFinal, hfe, ActionResult.isErr],
                  by simp [custom_select_dropdown_option, h1, h2, h3, hkb,
                    hsf, dropFinal, hfe, stageChain]⟩
  | exc m0 =>
      have hks : kbSucceedsB env text = false := by simp [kbSucceedsB, hkb]
      cases hsf : env.scrollFind with
      | found =>
          cases hfc : firstSelClick env.selClick with
          | some i =>
              have hcss : csSucceedsB env = true := by
                simp [csSucceedsB, hsf, hfc]
              refine ⟨⟨[.typeEnter],
                by simp [custom_select_dropdown_option, h1, h2, h3, hkb, hsf,
                  hfc, stageChain]⟩, ?_, ?_, ?_, ?_⟩
              · intro h; rw [hks] at h; simp at h
              · intro _ _
                simp [custom_select_dropdown_option, h1, h2, h3, hkb, hsf, hfc]
              · intro _ h _; rw [hcss] at h; simp at h
              · intro e _ h _; rw [hcss] at h; simp at h
          | none =>
              have hcss : csSucceedsB env = false := by
                simp [csSucceedsB, hsf, hfc]
              cases hfe : env.finalExc with
              | none =>
                  refine ⟨⟨[],
                    by simp [custom_select_dropdown_option, h1, h2, h3, hkb,
                      hsf, hfc, dropFinal, hfe, stageChain]⟩, ?_, ?_, ?_, ?_⟩
                  · intro h; rw [hks] at h; simp at h
                  · intro _ h; rw [hcss] at h; simp at h
                  · intro _ _ _
                    simp [custom_select_dropdown_option, h1, h2, h3, hkb, hsf,
                      hfc, dropFinal, hfe, stageChain]
                  · intro e _ _ hfe2; exact Option.noConfusion hfe2
              | some e0 =>
                  refine ⟨⟨[],
                    by simp [custom_select_dropdown_option, h1, h2, h3, hkb,
                      hsf, hfc, dropFinal, hfe, stageChain]⟩, ?_, ?_, ?_, ?_⟩
                  · intro h; rw [hks] at h; simp at h
                  · intro _ h; rw [hcss] at h; simp at h
                  · intro _ _ hfe2; exact Option.noConfusion hfe2
                  · intro e _ _ _
                    exact ⟨by simp [custom_select_dropdown_option, h1, h2, h3,
                        hkb, hsf, hfc, dropFinal, hfe, ActionResult.isErr],
                      by simp [custom_select_dropdown_option, h1, h2, h3, hkb,
                        hsf, hfc, dropFinal, hfe, stageChain]⟩
      | notFound =>
          have hcss : csSucceedsB env = false := by simp [csSucceedsB, hsf]
          cases hfe : env.finalExc with
          | none =>
              refine ⟨⟨[],
                by simp [custom_select_dropdown_option, h1, h2, h3, hkb, hsf,
                  dropFinal, hfe, stageChain]⟩, ?_, ?_, ?_, ?_⟩
              · intro h; rw [hks] at h; simp at h
              · intro _ h; rw [hcss] at h; simp at h
              · intro _ _ _
                simp [custom_select_dropdown_option, h1, h2, h3, hkb, hsf,
                  dropFinal, hfe, stageChain]
              · intro e _ _ hfe2; exact Option.noConfusion hfe2
          | some e0 =>
              refine ⟨⟨[],
                by simp [custom_select_dropdown_option, h1, h2, h3, hkb, hsf,
                  dropFinal, hfe, stageChain]⟩, ?_, ?_, ?_, ?_⟩
              · intro h; rw [hks] at h; simp at h
              · intro _ h; rw [hcss] at h; simp at h
              · intro _ _ hfe2; exact Option.noConfusion hfe2
              · intro e _ _ _
                exact ⟨by simp [custom_select_dropdown_option, h1, h2, h3,
                    hkb, hsf, dropFinal, hfe, ActionResult.isErr],
                  by simp [custom_select_dropdown_option, h1, h2, h3, hkb,
                    hsf, dropFinal, hfe, stageChain]⟩
      | exc m =>
          have hcss : csSucceedsB env = false := by simp [csSucceedsB, hsf]
          cases hfe : env.finalExc with
          | none =>
              refine ⟨⟨[],
                by simp [custom_select_dropdown_option, h1, h2, h3, hkb, hsf,
                  dropFinal, hfe, stageChain]⟩, ?_, ?_, ?_, ?_⟩
              · intro h; rw [hks] at h; simp at h
              · intro _ h; rw [hcss] at h; simp at h
              · intro _ _ _
                simp [custom_select_dropdown_option, h1, h2, h3, hkb, hsf,
                  dropFinal, hfe, stageChain]
              · intro e _ _ hfe2; exact Option.noConfusion hfe2
          | some e0 =>
              refine ⟨⟨[],
                by simp [custom_select_dropdown_option, h1, h2, h3, hkb, hsf,
                  dropFinal, hfe, stageChain]⟩, ?_, ?_, ?_, ?_⟩
              · intro h; rw [hks] at h; simp at h
              · intro _ h; rw [hcss] at h; simp at h
              · intro _ _ hfe2; exact Option.noConfusion hfe2
              · intro e _ _ _
                exact ⟨by simp [custom_select_dropdown_option, h1, h2, h3,
                    hkb, hsf, dropFinal, hfe, ActionResult.isErr],
                  by simp [custom_select_dropdown_option, h1, h2, h3, hkb,
                    hsf, dropFinal, hfe, stageChain]⟩

/-- Witness for C2: with nothing ever highlighted, no container found and a
clean final fallback, every earlier stage fails and the chain ends in the
type-and-enter stage's success after attempting the whole chain. -/
theorem C2_fallback_chain_order_witness :
    custom_select_dropdown_option
      ⟨true, none, true, none, none, fun _ => .val none, .notFound,
        fun _ => false, none⟩ 3 "Yes" =
      (.ok (teOkMsg "Yes"), stageChain) := by
  exact (C2_fallback_chain_order
    ⟨true, none, true, none, none, fun _ => .val none, .notFound,
      fun _ => false, none⟩ 3 "Yes" rfl rfl rfl).2.2.2.1
    (by decide) (by decide) rfl

/-! ## C6 and C9: the Login Flow Runner -/

/-- **C6**: For every site whose credentials entry exists but lacks a
username or a password (modelled as the empty string, which is what
`creds.get(..., "")` yields for a missing key), `perform_login_flow`
normalizes the site name to lower case, returns the failure outcome
`"Credentials incomplete for site <normalized-site>"`, performs no browser
action before returning (the event list holds only the log of that
message), and — being a total function into `ActionResult` — raises no
exception. -/
theorem C6_incomplete_credentials (data : CredMap) (env : LoginEnv)
    (site : String) (c : Creds)
    (hlk : lookupLower data
      (lowerStr (trimStr (trimStr (lowerStr site)))) = some c)
    (hinc : c.username = "" ∨ c.password = "") :
    perform_login_flow data env site =
      ([.log ("Credentials incomplete for site " ++ trimStr (lowerStr site))],
        .err ("Credentials incomplete for site " ++ trimStr (lowerStr site))) ∧
    actsOf (perform_login_flow data env site).1 = [] := by
  have hcond : (c.username = "" || c.password = "") = true := by
    rcases hinc with h | h <;> simp [h]
  have hres : perform_login_flow data env site =
      ([.log ("Credentials incomplete for site " ++ trimStr (lowerStr site))],
        .err ("Credentials incomplete for site " ++ trimStr (lowerStr site))) := by
    simp only [perform_login_flow, get_site_login_credentials, hlk, hcond,
      if_true, List.map_nil, List.nil_append]
  exact ⟨hres, by rw [hres]; rfl⟩

/-- Witness for C6: the entry for `"LinkedIn"` has an empty password, so
the call fails with the normalized message and performs no browser
action. -/
theorem C6_incomplete_credentials_witness :
    perform_login_flow [("LinkedIn", ⟨"user", ""⟩)] ⟨"", none, none⟩
        "LinkedIn" =
      ([.log "Credentials incomplete for site linkedin"],
        .err "Credentials incomplete for site linkedin") ∧
    actsOf (perform_login_flow [("LinkedIn", ⟨"user", ""⟩)] ⟨"", none, none⟩
      "LinkedIn").1 = [] := by
  have h := C6_incomplete_credentials [("LinkedIn", ⟨"user", ""⟩)]
    ⟨"", none, none⟩ "LinkedIn" ⟨"user", ""⟩ (by decide) (Or.inr rfl)
  exact ⟨h.1.trans (by decide), h.2⟩

/-- **C9 counterexample**: the login flow logs the stored username in
plaintext: with the credentials map holding username `"secretUser"` for
`linkedin`, a successful login run produces a log line containing
`"secretUser"` — refuting the claim that no log output contains a stored
username or password. -/
theorem C9_plaintext_username_counterexample :
    lookupLower [("linkedin", ⟨"secretUser", "hunter2"⟩)] "linkedin" =
      some ⟨"secretUser", "hunter2"⟩ ∧
    ((logsOf (perform_login_flow [("linkedin", ⟨"secretUser", "hunter2"⟩)]
        ⟨"https://www.linkedin.com/login", none, none⟩ "linkedin").1).any
      (fun m => substrB "secretUser" m)) = true := by
  refine ⟨by decide, by decide⟩

/-- The case-insensitive credentials lookup commutes with rewriting every
entry's credentials (keys unchanged). -/
theorem lookupLower_map (g : Creds → Creds) (data : CredMap) (k : String) :
    lookupLower (data.map (fun kv => (kv.1, g kv.2))) k =
      (lookupLower data k).map g := by
  unfold lookupLower
  rw [List.filter_map, List.getLast?_map, Option.map_map, Option.map_map]
  rfl

/-- Lists of events with the same log projections have the same logs. -/
theorem logsOf_congr : ∀ l₁ l₂ : List LEvent,
    l₁.map logOpt = l₂.map logOpt → logsOf l₁ = logsOf l₂ := by
  intro l₁
  induction l₁ with
  | nil =>
      intro l₂ h
      cases l₂ with
      | nil => rfl
      | cons b bs => simp at h
  | cons a as ih =>
      intro l₂ h
      cases l₂ with
      | nil => simp at h
      | cons b bs =>
          simp only [List.map_cons, List.cons.injEq] at h
          have htail := ih bs h.2
          simp only [logsOf, List.filterMap_cons, h.1]
          cases logOpt b with
          | none => exact htail
          | some m => exact congrArg (List.cons m) htail

/-- `runSite` produces the same logs for event sequences with the same log
projections (the sequences for two different passwords differ only in an
action's payload). -/
theorem runSite_logs_congr (seq seq' : List LEvent)
    (okMsg failPre : String) (exc : Option (Nat × String))
    (h : seq.map logOpt = seq'.map logOpt) :
    logsOf (runSite seq okMsg failPre exc).1 =
      logsOf (runSite seq' okMsg failPre exc).1 := by
  cases exc with
  | none =>
      simp only [runSite, logsOf, List.filterMap_append]
      rw [show seq.filterMap logOpt = seq'.filterMap logOpt from
        logsOf_congr seq seq' h]
  | some nm =>
      obtain ⟨n, m⟩ := nm
      simp only [runSite, logsOf, List.filterMap_append]
      rw [show (seq.take n).filterMap logOpt =
          (seq'.take n).filterMap logOpt from
        logsOf_congr _ _ (by rw [List.map_take, List.map_take, h])]

/-- The LinkedIn event sequence's log projection does not depend on the
password (nor on the username beyond the positions of log lines). -/
theorem linkedinSeq_map_logOpt (url u p p' : String) :
    (linkedinSeq url u p).map logOpt = (linkedinSeq url u p').map logOpt := by
  unfold linkedinSeq
  by_cases h : substrB "linkedin.com" url = true <;> simp [h, logOpt]

/-- Likewise for the Indeed event sequence. -/
theorem indeedSeq_map_logOpt (url u p p' : String) :
    (indeedSeq url u p).map logOpt = (indeedSeq url u p').map logOpt := by
  unfold indeedSeq
  by_cases h : substrB "indeed.com" (lowerStr url) = true <;> simp [h, logOpt]

/-- **C9 (amended)**: no log output of the login flow or the credentials
lookup contains a stored password in plaintext — formalized as
noninterference: replacing every stored password by any other password with
the same emptiness (so the incomplete-credentials branch is preserved)
leaves the produced log output unchanged, for every credentials map,
browser environment and site.  Stored usernames, by contrast, are logged in
plaintext (see the counterexample). -/
theorem C9_password_never_logged (data : CredMap) (env : LoginEnv)
    (site : String) (f : String → String)
    (hf : ∀ s, (f s = "") ↔ (s = "")) :
    logsOf (perform_login_flow
      (data.map (fun kv => (kv.1, ⟨kv.2.username, f kv.2.password⟩)))
      env site).1 =
      logsOf (perform_login_flow data env site).1 := by
  have hl := lookupLower_map (fun c => ⟨c.username, f c.password⟩) data
    (lowerStr (trimStr (trimStr (lowerStr site))))
  have hkeys : (data.map
      (fun kv => (kv.1, (⟨kv.2.username, f kv.2.password⟩ : Creds)))).map
        Prod.fst = data.map Prod.fst := by
    rw [List.map_map]; rfl
  cases hlk : lookupLower data
      (lowerStr (trimStr (trimStr (lowerStr site)))) with
  | none =>
      rw [hlk] at hl
      simp only [perform_login_flow, get_site_login_credentials, hl, hlk,
        Option.map_none', hkeys]
  | some c =>
      rw [hlk] at hl
      simp only [perform_login_flow, get_site_login_credentials, hl, hlk,
        Option.map_some']
      have hcond : (decide (c.username = "") ||
          decide (f c.password = "")) =
          (decide (c.username = "") || decide (c.password = "")) := by
        rw [decide_eq_decide.mpr (hf c.password)]
      rw [hcond]
      by_cases hinc : (decide (c.username = "") ||
          decide (c.password = "")) = true
      · rw [hinc]
        simp only [if_true]
      · rw [Bool.not_eq_true] at hinc
        rw [hinc]
        simp only [Bool.false_eq_true, if_false]
        by_cases hli : trimStr (lowerStr site) = "linkedin"
        · simp only [hli, if_true]
          simp only [logsOf, List.filterMap_append]
          have hrs := runSite_logs_congr
            (linkedinSeq env.currentUrl c.username (f c.password))
            (linkedinSeq env.currentUrl c.username c.password)
            ("Login attempt complete for LinkedIn user " ++ c.username)
            "Failed LinkedIn login flow: " env.linkedinExc
            (linkedinSeq_map_logOpt env.currentUrl c.username
              (f c.password) c.password)
          simp only [logsOf] at hrs
          rw [hrs]
        · simp only [hli, if_false]
          by_cases hin : trimStr (lowerStr site) = "indeed"
          · simp only [hin, if_true]
            simp only [logsOf, List.filterMap_append]
            have hrs := runSite_logs_congr
              (indeedSeq env.currentUrl c.username (f c.password))
              (indeedSeq env.currentUrl c.username c.password)
              ("Login attempt complete for Indeed user " ++ c.username)
              "Failed Indeed login flow: " env.indeedExc
              (indeedSeq_map_logOpt env.currentUrl c.username
                (f c.password) c.password)
            simp only [logsOf] at hrs
            rw [hrs]
          · simp only [hin, if_false]

/-- Witness for the amended C9: replacing the non-empty password `"p"` by
`"censored"` leaves the log output of a concrete LinkedIn login run
unchanged. -/
theorem C9_password_never_logged_witness :
    logsOf (perform_login_flow
      ((([("linkedin", ⟨"u", "p"⟩)] : CredMap)).map
        (fun kv => (kv.1, ⟨kv.2.username,
          (fun s => if s = "" then "" else "censored") kv.2.password⟩)))
      ⟨"x", none, none⟩ "linkedin").1 =
      logsOf (perform_login_flow [("linkedin", ⟨"u", "p"⟩)]
        ⟨"x", none, none⟩ "linkedin").1 :=
  C9_password_never_logged [("linkedin", ⟨"u", "p"⟩)] ⟨"x", none, none⟩
    "linkedin" (fun s => if s = "" then "" else "censored")
    (by
      intro s
      by_cases hs : s = "" <;> simp [hs])

end RecToc
